import Mathlib

/-!
# Verification of `FScene` (filament `src/filament/src/Scene.cpp`)

A shallow embedding of the per-frame scene-preparation and light-selection
pipeline of `FScene`: `prepare`, `prepareLights`, `computeBounds`,
`setSkybox`, together with the capacity-sizing arithmetic.

Floating-point scalars are modelled over `ℝ`.  Machine integers (`size_t`)
are modelled as `Nat` with explicit `% 2 ^ 64` where overflow matters.
External component managers (entity registry, renderable / transform /
light managers) are modelled as an explicit environment of functions, as
the specification's dependency-injection reading prescribes.
-/

namespace Filament

/-- Three-component vector of reals (models `float3`). -/
abbrev Vec3 := Fin 3 → ℝ

/-- Four-component vector of reals (models `float4`). -/
abbrev Vec4 := Fin 4 → ℝ

/-- A 3×3 real matrix (models `mat3f`). -/
abbrev Mat3 := Matrix (Fin 3) (Fin 3) ℝ

/-- A 4×4 real matrix (models `mat4f`). -/
abbrev Mat4 := Matrix (Fin 4) (Fin 4) ℝ

/-- Vector literal constructor for `Vec3`. -/
def v3 (a b c : ℝ) : Vec3 := fun i => if i.val = 0 then a else if i.val = 1 then b else c

/-- Vector literal constructor for `Vec4`. -/
def v4 (a b c d : ℝ) : Vec4 :=
  fun i => if i.val = 0 then a else if i.val = 1 then b else if i.val = 2 then c else d

/-- The `.xyz` swizzle of a `float4`. -/
def xyz (v : Vec4) : Vec3 := fun i => v i.castSucc

/-- Euclidean length of a `float3` (models `math::length`). -/
noncomputable def norm3 (v : Vec3) : ℝ := Real.sqrt (v 0 * v 0 + v 1 * v 1 + v 2 * v 2)

/-- Models `math::normalize`: divide a vector by its length. -/
noncomputable def normalize3 (v : Vec3) : Vec3 := fun i => v i / norm3 v

/-- Models `mat4f::upperLeft()`: the upper-left 3×3 submatrix of a 4×4 matrix. -/
def upperLeft (M : Mat4) : Mat3 := M.submatrix Fin.castSucc Fin.castSucc

/-- The direction computation shared by the directional and local light paths in
`FScene::prepare`: the light's local direction transformed by the
inverse-transpose of the world transform's upper-left 3×3, then normalized. -/
noncomputable def transformedDirection (worldTransform : Mat4) (localDirection : Vec3) : Vec3 :=
  normalize3 ((upperLeft worldTransform)⁻¹.transpose.mulVec localDirection)

/-- An axis-aligned box given by center and half-extent (models `filament::Box`). -/
structure Box where
  center : Vec3
  halfExtent : Vec3

/-- An axis-aligned box given by its two corners (models `filament::Aabb`). -/
structure Aabb where
  min : Vec3
  max : Vec3

/-- Componentwise minimum of two `float3` (models `math::min`). -/
def min3 (a b : Vec3) : Vec3 := fun i => min (a i) (b i)

/-- Componentwise maximum of two `float3` (models `math::max`). -/
def max3 (a b : Vec3) : Vec3 := fun i => max (a i) (b i)

/-- Componentwise absolute value of a 3×3 matrix. -/
def matAbs (M : Mat3) : Mat3 := Matrix.of fun i j => |M i j|

/-- Modelled from the spec: `rigidTransform` (declared in `details/Scene.h`, its body is not
under `src/`) transforms an object-space box by a world transform: the new center is the
transform applied to the center (homogeneous point transform), and the new half-extent is the
absolute value of the transform's upper-left 3×3 applied to the old half-extent. -/
noncomputable def rigidTransform (b : Box) (M : Mat4) : Box :=
  { center := xyz (M.mulVec (v4 (b.center 0) (b.center 1) (b.center 2) 1))
    halfExtent := (matAbs (upperLeft M)).mulVec b.halfExtent }

/-- Per-renderable visibility flags (models `FRenderableManager::Visibility`). -/
structure Visibility where
  castShadows : Bool
  receiveShadows : Bool

/-- One row of `RenderableSoa`, in column order of `FScene::push_back_unsafe`. -/
structure RenderableRow where
  renderableInstance : Nat
  worldTransform : Mat4
  visibility : Visibility
  ubh : Nat
  bonesUbh : Nat
  worldAABBCenter : Vec3
  summedPrimitiveCount : Nat
  layers : Nat
  worldAABBExtent : Vec3
  reserved0 : Nat
  reserved1 : Nat

/-- One row of `LightSoa`: position+radius (`float4`), direction, light-instance
back-reference, reserved visibility slot. -/
structure LightRow where
  positionRadius : Vec4
  direction : Vec3
  lightInstance : Nat
  visibility : Nat

/-- A zeroed `LightSoa` row (the cleared reserved directional slot). -/
def zeroLightRow : LightRow :=
  { positionRadius := 0, direction := 0, lightInstance := 0, visibility := 0 }

/-- A structure-of-arrays container: logical rows plus a capacity.
All columns share one logical length, so a row list models the columns. -/
structure Soa (α : Type) where
  rows : List α
  cap : Nat

/-- Properties of a renderable component, read through `FRenderableManager` accessors. -/
structure RenderableProps where
  aabb : Box
  visibility : Visibility
  ubh : Nat
  bonesUbh : Nat
  layerMask : Nat

/-- Properties of a light component, read through `FLightManager` accessors. -/
structure LightProps where
  isDirectional : Bool
  isPoint : Bool
  isIES : Bool
  intensity : ℝ
  localDirection : Vec3
  localPosition : Vec3
  radius : ℝ
  color : Vec3
  squaredFalloffInv : ℝ
  spotScaleOffset : ℝ × ℝ

/-- The external collaborators of `FScene::prepare`, as dependency-injected functions:
entity registry (`isAlive`), the three component managers (`getInstance` of each), the
transform manager's `getWorldTransform` (total, including the null instance, which is
what the source reads when an entity has no transform component), and the per-instance
property accessors. -/
structure Engine where
  isAlive : Nat → Bool
  renderableInstanceOf : Nat → Option Nat
  lightInstanceOf : Nat → Option Nat
  transformInstanceOf : Nat → Option Nat
  worldTransformOf : Option Nat → Mat4
  renderableProps : Nat → RenderableProps
  lightProps : Nat → LightProps

/-- Models `FScene::DIRECTIONAL_LIGHTS_COUNT`: row 0 of `LightSoa` is reserved. -/
def DIRECTIONAL_LIGHTS_COUNT : Nat := 1

/-- The capacity bound computed at the top of `FScene::prepare`:
`capacity = entities.size(); capacity = (capacity + 0xF) & ~0xF; capacity = capacity + 1`,
on a 64-bit `size_t` (`~0xF` is `2^64 - 0x10`). -/
def computeCapacity (n : Nat) : Nat :=
  (((n + 0xF) % 2 ^ 64) &&& (2 ^ 64 - 0x10)) + 1

/-- Models `clear()` followed by the guarded `setCapacity`:
rows are cleared, the capacity grows to `c` only when it was smaller. -/
def sizeSoa {α : Type} (soa : Soa α) (c : Nat) : Soa α :=
  { rows := [], cap := if soa.cap < c then c else soa.cap }

/-- The sizing phase of `FScene::prepare`: clear both SoAs, grow their capacities to the
computed bound if needed, then `lightData.resize(DIRECTIONAL_LIGHTS_COUNT)` (zero-extend
the cleared container to exactly one zeroed row). -/
def prepareSizing (sceneData : Soa RenderableRow) (lightData : Soa LightRow) (n : Nat) :
    Soa RenderableRow × Soa LightRow :=
  let c := computeCapacity n
  let sceneData' := sizeSoa sceneData c
  let lightData' := sizeSoa lightData c
  (sceneData', { lightData' with rows := List.replicate DIRECTIONAL_LIGHTS_COUNT zeroLightRow })

/-- The state threaded through the entity loop of `FScene::prepare`. -/
structure GatherState where
  sceneData : Soa RenderableRow
  lightData : Soa LightRow
  maxIntensity : ℝ

/-- The `LightSoa` row appended for a non-directional (local) light in `FScene::prepare`:
world position is the homogeneous transform of the local position; the direction is left
at zero for a point light without an IES profile, and is the inverse-transpose-transformed,
normalized local direction otherwise. -/
noncomputable def localLightRow (env : Engine) (worldTransform : Mat4) (li : Nat) : LightRow :=
  let lp := env.lightProps li
  let p := worldTransform.mulVec (v4 (lp.localPosition 0) (lp.localPosition 1) (lp.localPosition 2) 1)
  let d : Vec3 :=
    if ¬lp.isPoint ∨ lp.isIES then transformedDirection worldTransform lp.localDirection
    else 0
  { positionRadius := v4 (xyz p 0) (xyz p 1) (xyz p 2) lp.radius
    direction := d
    lightInstance := li
    visibility := 0 }

/-- The `LightSoa` row written into the reserved slot 0 when a directional light passes the
intensity test: all four columns of row 0 are assigned (`elementAt<...>(0) = ...`). -/
noncomputable def directionalLightRow (env : Engine) (worldTransform : Mat4) (li : Nat) : LightRow :=
  { positionRadius := 0
    direction := transformedDirection worldTransform (env.lightProps li).localDirection
    lightInstance := li
    visibility := 0 }

/-- One iteration of the entity loop of `FScene::prepare`.  Note that, as in the source,
`maxIntensity` is *not* updated when a directional light passes the
`getIntensity(li) >= maxIntensity` test. -/
noncomputable def prepareStep (env : Engine) (worldOrigin : Mat4) (st : GatherState) (e : Nat) :
    GatherState :=
  if ¬env.isAlive e then st
  else
    let ri := env.renderableInstanceOf e
    let li := env.lightInstanceOf e
    if ri = none ∧ li = none then st
    else
      let ti := env.transformInstanceOf e
      let worldTransform := worldOrigin * env.worldTransformOf ti
      let st1 :=
        match ri, ti with
        | some r, some _ =>
          let worldAABB := rigidTransform (env.renderableProps r).aabb worldTransform
          let row : RenderableRow :=
            { renderableInstance := r
              worldTransform := worldTransform
              visibility := (env.renderableProps r).visibility
              ubh := (env.renderableProps r).ubh
              bonesUbh := (env.renderableProps r).bonesUbh
              worldAABBCenter := worldAABB.center
              summedPrimitiveCount := 0
              layers := (env.renderableProps r).layerMask
              worldAABBExtent := worldAABB.halfExtent
              reserved0 := 0
              reserved1 := 0 }
          { st with sceneData := { st.sceneData with rows := st.sceneData.rows ++ [row] } }
        | _, _ => st
      match li with
      | none => st1
      | some l =>
        if (env.lightProps l).isDirectional then
          if (env.lightProps l).intensity ≥ st1.maxIntensity then
            let rows' := st1.lightData.rows.set 0 (directionalLightRow env worldTransform l)
            { st1 with lightData := { st1.lightData with rows := rows' } }
          else st1
        else
          let rows' := st1.lightData.rows ++ [localLightRow env worldTransform l]
          { st1 with lightData := { st1.lightData with rows := rows' } }

/-- Models `FScene::prepare(worldOriginTransform)`: sizing phase followed by the entity gather
loop.  `entities` is the scene's entity set in its iteration order. -/
noncomputable def prepare (env : Engine) (worldOrigin : Mat4) (entities : List Nat)
    (sceneData : Soa RenderableRow) (lightData : Soa LightRow) : GatherState :=
  let sized := prepareSizing sceneData lightData entities.length
  entities.foldl (prepareStep env worldOrigin) ⟨sized.1, sized.2, 0⟩

/-- One iteration of the loop of `FScene::computeBounds`: a row whose layer bitmask
intersects `visibleLayers` expands the casters box if it casts shadows and the receivers
box if it receives shadows. -/
def computeBoundsStep (visibleLayers : Nat) (acc : Aabb × Aabb) (r : RenderableRow) :
    Aabb × Aabb :=
  if r.layers &&& visibleLayers ≠ 0 then
    let aabbMin := r.worldAABBCenter - r.worldAABBExtent
    let aabbMax := r.worldAABBCenter + r.worldAABBExtent
    let casters :=
      if r.visibility.castShadows then
        { min := min3 acc.1.min aabbMin, max := max3 acc.1.max aabbMax } else acc.1
    let receivers :=
      if r.visibility.receiveShadows then
        { min := min3 acc.2.min aabbMin, max := max3 acc.2.max aabbMax } else acc.2
    (casters, receivers)
  else acc

/-- Models `FScene::computeBounds(castersBox, receiversBox, visibleLayers)`: a single linear pass
over the rows of `RenderableSoa`, starting from the caller's accumulator boxes. -/
def computeBounds (soa : List RenderableRow) (visibleLayers : Nat)
    (castersBox receiversBox : Aabb) : Aabb × Aabb :=
  soa.foldl (computeBoundsStep visibleLayers) (castersBox, receiversBox)

/-- The per-light sort key of `FScene::prepareLights`:
`max(0.0f, length(position - s.xyz) - s.w)`, the distance from the camera position to the
light's influence-sphere boundary, clamped to zero. -/
noncomputable def lightDistance (camera : Vec3) (r : LightRow) : ℝ :=
  max 0 (norm3 (camera - xyz r.positionRadius) - r.positionRadius 3)

/-- The comparator of the `std::sort` call in `prepareLights`:
`lhs.second < rhs.second` on the zipped (row, distance) pairs, i.e. ordering rows by
their precomputed camera-boundary distance (as a non-strict relation for sorting). -/
def distLE (camera : Vec3) (a b : LightRow) : Prop :=
  lightDistance camera a ≤ lightDistance camera b

noncomputable instance distLEDecidable (camera : Vec3) : DecidableRel (distLE camera) :=
  fun a b => Real.decidableLE (lightDistance camera a) (lightDistance camera b)

/-- The `std::sort` over the local-light range `[DIRECTIONAL_LIGHTS_COUNT, size)` zipped
with the precomputed distances: rows are sorted by ascending `lightDistance`. -/
noncomputable def sortLocals (camera : Vec3) (l : List LightRow) : List LightRow :=
  List.insertionSort (distLE camera) l

/-- The truncation step of `FScene::prepareLights` with GPU capacity `k`
(`CONFIG_MAX_LIGHT_COUNT`, a compile-time constant defined outside this translation unit,
kept as a parameter): when `size > k + DIRECTIONAL_LIGHTS_COUNT`, sort the local range by
distance and `resize(min(size, k + DIRECTIONAL_LIGHTS_COUNT))`; otherwise do nothing.

Caution: the sort-by-key in the then-branch is the branch's *intended* arithmetic, not
its actual behavior.  The source precomputes the keys into a fixed scratch buffer
`float distances[CONFIG_MAX_LIGHT_COUNT]` and, whenever this branch runs
(`size ≥ k + 2`), stores `distances[i]` for every `i` in
`[DIRECTIONAL_LIGHTS_COUNT, size)`; the stores at indices `k .. size - 1` land at or
past the end of the buffer (see `distancesWriteIndices` and `distancesBufferSize`), and
the zipped `std::sort` then reads and swaps through the overrun.  The branch is
therefore an out-of-bounds access on every input that reaches it; theorems about the
source's actual behavior restrict to the non-truncating domain, where this definition
is the identity and matches the source exactly. -/
noncomputable def truncateLights (k : Nat) (camera : Vec3) (rows : List LightRow) :
    List LightRow :=
  if rows.length > k + DIRECTIONAL_LIGHTS_COUNT then
    (rows.take DIRECTIONAL_LIGHTS_COUNT ++ sortLocals camera (rows.drop DIRECTIONAL_LIGHTS_COUNT)).take
      (min rows.length (k + DIRECTIONAL_LIGHTS_COUNT))
  else rows

/-- Models the extent of the scratch buffer `float distances[CONFIG_MAX_LIGHT_COUNT]`
declared in the truncation branch of `prepareLights`: its valid indices are
`0 .. k - 1`. -/
def distancesBufferSize (k : Nat) : Nat := k

/-- The indices `i` at which the pre-sort loop of the truncation branch stores
`distances[i]`: `for (i = DIRECTIONAL_LIGHTS_COUNT, c = lightData.size(); i < c; ++i)`.
The loop bound is the `LightSoa` size, not the buffer size. -/
def distancesWriteIndices (rows : List LightRow) : List Nat :=
  List.range' DIRECTIONAL_LIGHTS_COUNT (rows.length - DIRECTIONAL_LIGHTS_COUNT)

/-- A packed GPU light-buffer record (`GpuLightBuffer::LightParameters`). -/
structure LightParameters where
  positionFalloff : Vec4
  colorIntensity : Vec4
  directionIES : Vec4
  spotScaleOffset : ℝ × ℝ

/-- Observable operations issued against the GPU light buffer by `prepareLights`.
Modelled from the spec: `GpuLightBuffer` itself is not under `src/`; its interface is
per-slot write, `markDirty(rangeStart, rangeLength)` (the source's `invalidate`), and a
single `commit`. -/
inductive GpuEvent where
  | writeSlot (slot : Nat) (params : LightParameters)
  | invalidate (start count : Nat)
  | commit

/-- The packed record written for the light of row `r`
(`positionFalloff`, `colorIntensity`, `directionIES`, `spotScaleOffset`). -/
noncomputable def packLight (env : Engine) (r : LightRow) : LightParameters :=
  let lp := env.lightProps r.lightInstance
  { positionFalloff := v4 (xyz r.positionRadius 0) (xyz r.positionRadius 1)
      (xyz r.positionRadius 2) lp.squaredFalloffInv
    colorIntensity := v4 (lp.color 0) (lp.color 1) (lp.color 2) lp.intensity
    directionIES := v4 (r.direction 0) (r.direction 1) (r.direction 2) 0
    spotScaleOffset := lp.spotScaleOffset }

/-- Models `FScene::prepareLights(camera)`: the truncation step, then for each remaining local
row `i ∈ [DIRECTIONAL_LIGHTS_COUNT, size)` a write of the packed record to GPU slot
`i - DIRECTIONAL_LIGHTS_COUNT`, then `invalidate(0, size)` and a single `commit`.
Returns the post-truncation `LightSoa` rows and the GPU event trace. -/
noncomputable def prepareLights (env : Engine) (k : Nat) (camera : Vec3)
    (rows : List LightRow) : List LightRow × List GpuEvent :=
  let rows' := truncateLights k camera rows
  (rows',
    ((rows'.drop DIRECTIONAL_LIGHTS_COUNT).enum.map
        fun p => GpuEvent.writeSlot p.1 (packLight env p.2))
      ++ [GpuEvent.invalidate 0 rows'.length, GpuEvent.commit])

/-- The scene-membership state touched by `setSkybox`: the entity set and the currently
registered skybox (a skybox is identified by its entity). -/
structure SceneMembership where
  entities : Finset Nat
  skybox : Option Nat

/-- Models `FScene::addEntity`. -/
def addEntity (st : SceneMembership) (e : Nat) : SceneMembership :=
  { st with entities := insert e st.entities }

/-- Models `FScene::remove`. -/
def removeEntity (st : SceneMembership) (e : Nat) : SceneMembership :=
  { st with entities := st.entities.erase e }

/-- Models `FScene::setSkybox`: swap the registered skybox, remove the old skybox's entity
(if any), then add the new skybox's entity (if any). -/
def setSkybox (st : SceneMembership) (newSkybox : Option Nat) : SceneMembership :=
  let old := st.skybox
  let st1 := { st with skybox := newSkybox }
  let st2 := match old with
    | some e => removeEntity st1 e
    | none => st1
  match newSkybox with
  | some e => addEntity st2 e
  | none => st2

/-- The entities of one `prepare` pass that produce a `RenderableSoa` row: alive, with a
renderable instance and a transform instance. -/
def renderablePred (env : Engine) (e : Nat) : Bool :=
  env.isAlive e && (env.renderableInstanceOf e).isSome && (env.transformInstanceOf e).isSome

/-- The entities of one `prepare` pass that produce a local-light `LightSoa` row: alive,
with a light instance that is not a directional light. -/
def localLightPred (env : Engine) (e : Nat) : Bool :=
  env.isAlive e &&
    ((env.lightInstanceOf e).map (fun li => !(env.lightProps li).isDirectional)).getD false

/-- The spec's sizing bound, stated from its words: the entity-set size rounded up to the
next multiple of 16, plus one guard row. -/
def specCapacityBound (n : Nat) : Nat := 16 * ((n + 15) / 16) + 1

/-- Zeroed visibility flags. -/
def zeroVisibility : Visibility := ⟨false, false⟩

/-- The zero box. -/
def zeroBox : Box := ⟨0, 0⟩

/-- Zeroed renderable-component properties (witness fixture). -/
def zeroRenderableProps : RenderableProps := ⟨zeroBox, zeroVisibility, 0, 0, 0⟩

/-- Zeroed light-component properties (witness fixture). -/
def zeroLightProps : LightProps := ⟨false, false, false, 0, 0, 0, 0, 0, 0, (0, 0)⟩

/-- An engine with no components on any entity (witness fixture). -/
def trivialEngine : Engine :=
  ⟨fun _ => true, fun _ => none, fun _ => none, fun _ => none, fun _ => 1,
    fun _ => zeroRenderableProps, fun _ => zeroLightProps⟩

/-- An engine in which every entity carries a directional light, entity 1 with
intensity 10 and every other entity with intensity 5 (input exhibiting the
directional-selection defect). -/
def engineC2 : Engine :=
  { trivialEngine with
    lightInstanceOf := fun e => some e
    lightProps := fun e =>
      { zeroLightProps with
        isDirectional := true
        intensity := if e = 1 then 10 else 5 } }

/-- An engine whose lights are spot-like lights with local direction `(0,0,1)`
(witness fixture for the local-light direction property). -/
def engineC4 : Engine :=
  { trivialEngine with lightProps := fun _ => { zeroLightProps with localDirection := v3 0 0 1 } }

/-- A local light sitting at `(x, 0, 0)` with radius 0 (witness fixture). -/
def axisLight (x : ℝ) : LightRow :=
  { positionRadius := v4 x 0 0 0, direction := 0, lightInstance := 0, visibility := 0 }

/-- A camera at the origin (witness fixture). -/
def originCam : Vec3 := v3 0 0 0

/-- A `LightSoa` state with one reserved directional row and four local lights at
boundary distances 1, 2, 3, 4 from the origin camera (witness fixture). -/
def witnessRows : List LightRow :=
  [zeroLightRow, axisLight 1, axisLight 2, axisLight 3, axisLight 4]

/-- Recognizes a GPU slot write in an event trace. -/
def isWriteEvent : GpuEvent → Bool
  | GpuEvent.writeSlot _ _ => true
  | _ => false

/-- Recognizes the dirty-marking in an event trace. -/
def isInvalidateEvent : GpuEvent → Bool
  | GpuEvent.invalidate _ _ => true
  | _ => false

/-- Recognizes the commit in an event trace. -/
def isCommitEvent : GpuEvent → Bool
  | GpuEvent.commit => true
  | _ => false

/-- A shadow-casting and -receiving renderable row on layer 1 with world AABB
`[(-1,-1,-1), (1,1,1)]` (witness fixture). -/
def unitCubeRow : RenderableRow :=
  { renderableInstance := 0, worldTransform := 1, visibility := ⟨true, true⟩, ubh := 0,
    bonesUbh := 0, worldAABBCenter := v3 0 0 0, summedPrimitiveCount := 0, layers := 1,
    worldAABBExtent := v3 1 1 1, reserved0 := 0, reserved1 := 0 }

/-- A renderable row on layer 2 (witness fixture). -/
def layer2Row : RenderableRow :=
  { unitCubeRow with layers := 2, worldAABBCenter := v3 3 3 3 }

/-- A degenerate starting accumulator box (witness fixture). -/
def emptyBox : Aabb := ⟨v3 0 0 0, v3 0 0 0⟩

/-- One entity-loop iteration appends a `RenderableSoa` row exactly for entities
satisfying `renderablePred`, appends or rewrites `LightSoa` rows exactly as
`localLightPred` prescribes, and never touches either capacity. -/
theorem prepareStep_shape (env : Engine) (o : Mat4) (st : GatherState) (e : Nat) :
    (prepareStep env o st e).sceneData.rows.length
        = st.sceneData.rows.length + (if renderablePred env e then 1 else 0) ∧
    (prepareStep env o st e).lightData.rows.length
        = st.lightData.rows.length + (if localLightPred env e then 1 else 0) ∧
    (prepareStep env o st e).sceneData.cap = st.sceneData.cap ∧
    (prepareStep env o st e).lightData.cap = st.lightData.cap := by
  unfold prepareStep renderablePred localLightPred
  by_cases ha : env.isAlive e
  · rcases hri : env.renderableInstanceOf e with _ | r <;>
      rcases hli : env.lightInstanceOf e with _ | l <;>
      rcases hti : env.transformInstanceOf e with _ | t <;>
      simp [ha, hri, hli, hti] <;>
      split_ifs <;>
      simp_all
  · simp [ha]

/-- Fold form of `prepareStep_shape` over an entity list. -/
theorem foldl_prepareStep_shape (env : Engine) (o : Mat4) :
    ∀ (es : List Nat) (st : GatherState),
    ((es.foldl (prepareStep env o) st).sceneData.rows.length
        = st.sceneData.rows.length + es.countP (renderablePred env)) ∧
    ((es.foldl (prepareStep env o) st).lightData.rows.length
        = st.lightData.rows.length + es.countP (localLightPred env)) ∧
    (es.foldl (prepareStep env o) st).sceneData.cap = st.sceneData.cap ∧
    (es.foldl (prepareStep env o) st).lightData.cap = st.lightData.cap
  | [], st => by simp
  | e :: es, st => by
    have ih := foldl_prepareStep_shape env o es (prepareStep env o st e)
    have hs := prepareStep_shape env o st e
    refine ⟨?_, ?_, ?_, ?_⟩
    · rw [List.foldl_cons, ih.1, hs.1, List.countP_cons]
      split <;> omega
    · rw [List.foldl_cons, ih.2.1, hs.2.1, List.countP_cons]
      split <;> omega
    · rw [List.foldl_cons, ih.2.2.1, hs.2.2.1]
    · rw [List.foldl_cons, ih.2.2.2, hs.2.2.2]

/-- C3: after `prepare`, the `RenderableSoa` row count is the number of entities of the
set that are alive and have both a renderable and a transform instance, and the
`LightSoa` row count is 1 plus the number of entities that are alive and have a
non-directional light instance; dead entities and entities with neither component
contribute no row. -/
theorem prepare_row_counts (env : Engine) (worldOrigin : Mat4) (entities : List Nat)
    (sceneData : Soa RenderableRow) (lightData : Soa LightRow) :
    (prepare env worldOrigin entities sceneData lightData).sceneData.rows.length
        = entities.countP (renderablePred env) ∧
    (prepare env worldOrigin entities sceneData lightData).lightData.rows.length
        = 1 + entities.countP (localLightPred env) := by
  have h := foldl_prepareStep_shape env worldOrigin entities
    ⟨(prepareSizing sceneData lightData entities.length).1,
     (prepareSizing sceneData lightData entities.length).2, 0⟩
  unfold prepare
  refine ⟨?_, ?_⟩
  · rw [h.1]
    simp [prepareSizing, sizeSoa]
  · rw [h.2.1]
    simp [prepareSizing, sizeSoa, DIRECTIONAL_LIGHTS_COUNT]

/-- The arithmetic bound behind the assertion after the truncation step: the *idealized*
truncation (the buffer overrun erased, see `truncateLights`) always yields at most
`CONFIG_MAX_LIGHT_COUNT + 1` rows.  This is a statement about the intended arithmetic
only: on inputs that enter the truncation branch the source overruns its `distances`
buffer before the assertion. -/
theorem truncateLights_assert (k : Nat) (camera : Vec3) (rows : List LightRow) :
    (truncateLights k camera rows).length ≤ k + 1 := by
  unfold truncateLights DIRECTIONAL_LIGHTS_COUNT
  split
  · simp only [List.length_take]
    omega
  · omega

/-- C10: when the `LightSoa` length is at most `CONFIG_MAX_LIGHT_COUNT + 1` on entry,
`prepareLights` leaves the `LightSoa` completely unchanged — same length, same rows, same
order: the truncation branch is not entered and the GPU-fill loop only reads the rows. -/
theorem prepareLights_no_truncation (env : Engine) (k : Nat) (camera : Vec3)
    (rows : List LightRow) (h : rows.length ≤ k + 1) :
    (prepareLights env k camera rows).1 = rows := by
  unfold prepareLights truncateLights DIRECTIONAL_LIGHTS_COUNT
  simp only
  rw [if_neg (by omega)]

/-- Witness for C10 at a concrete two-row `LightSoa` and `k = 2`. -/
theorem prepareLights_no_truncation_witness :
    [zeroLightRow, axisLight 1].length ≤ 2 + 1 ∧
    (prepareLights trivialEngine 2 originCam [zeroLightRow, axisLight 1]).1
      = [zeroLightRow, axisLight 1] :=
  ⟨by simp, prepareLights_no_truncation trivialEngine 2 originCam _ (by simp)⟩

/-- Clearing the low four bits of a 64-bit value: `m & ~0xF` equals `16 * (m / 16)` for
in-range `m`. -/
theorem land_not_fifteen (m : Nat) (h : m < 2 ^ 64) :
    m &&& (2 ^ 64 - 0x10) = 16 * (m / 16) := by
  have hmask : (2 ^ 64 - 0x10 : Nat) = (2 ^ 60 - 1) <<< 4 := by
    rw [Nat.shiftLeft_eq]
    norm_num
  have h16 : 16 * (m / 16) = (m >>> 4) <<< 4 := by
    rw [Nat.shiftRight_eq_div_pow, Nat.shiftLeft_eq]
    norm_num [Nat.mul_comm]
  rw [hmask, h16]
  apply Nat.eq_of_testBit_eq
  intro i
  simp only [Nat.testBit_land, Nat.testBit_shiftLeft, Nat.testBit_shiftRight,
    Nat.testBit_two_pow_sub_one]
  by_cases h4 : 4 ≤ i
  · by_cases h64 : i < 64
    · have h60 : i - 4 < 60 := by omega
      have hi : 4 + (i - 4) = i := by omega
      simp [h4, h60, hi]
    · have hbit : m.testBit i = false :=
        Nat.testBit_lt_two_pow (lt_of_lt_of_le h (Nat.pow_le_pow_right (by norm_num) (by omega)))
      have hbit' : m.testBit (4 + (i - 4)) = false := by
        rwa [show 4 + (i - 4) = i by omega]
      simp [hbit, hbit']
  · simp [h4]

/-- The capacity formula of `prepare` agrees with the spec's phrase for every in-range
entity count. -/
theorem computeCapacity_eq (n : Nat) (h : n + 0xF < 2 ^ 64) :
    computeCapacity n = specCapacityBound n := by
  unfold computeCapacity specCapacityBound
  rw [Nat.mod_eq_of_lt h, land_not_fifteen _ h]

/-- The value `16 * ((n + 15) / 16)` really is "`n` rounded up to the next multiple of 16": a
multiple of 16, at least `n`, and no larger than any other multiple of 16 that is at
least `n`. -/
theorem specCapacityBound_roundUp (n : Nat) :
    16 ∣ specCapacityBound n - 1 ∧ n ≤ specCapacityBound n - 1 ∧
      (∀ m, n ≤ 16 * m → specCapacityBound n - 1 ≤ 16 * m) := by
  refine ⟨⟨(n + 15) / 16, by simp [specCapacityBound]⟩, ?_, ?_⟩
  · simp only [specCapacityBound, Nat.add_sub_cancel]
    omega
  · intro m hm
    simp only [specCapacityBound, Nat.add_sub_cancel]
    omega

/-- C8: `prepare` computes a capacity bound equal to the entity-set size rounded up to
the next multiple of 16 plus one guard row; after `prepare` both SoA capacities are at
least this bound and at least their previous value (capacity is never shrunk); and
immediately after the sizing step the `LightSoa` logical length is exactly 1. -/
theorem prepare_capacity (env : Engine) (worldOrigin : Mat4) (entities : List Nat)
    (sceneData : Soa RenderableRow) (lightData : Soa LightRow)
    (h : entities.length + 0xF < 2 ^ 64) :
    computeCapacity entities.length = specCapacityBound entities.length ∧
    specCapacityBound entities.length
        ≤ (prepare env worldOrigin entities sceneData lightData).sceneData.cap ∧
    specCapacityBound entities.length
        ≤ (prepare env worldOrigin entities sceneData lightData).lightData.cap ∧
    sceneData.cap ≤ (prepare env worldOrigin entities sceneData lightData).sceneData.cap ∧
    lightData.cap ≤ (prepare env worldOrigin entities sceneData lightData).lightData.cap ∧
    (prepareSizing sceneData lightData entities.length).2.rows.length = 1 := by
  have hcap := foldl_prepareStep_shape env worldOrigin entities
    ⟨(prepareSizing sceneData lightData entities.length).1,
     (prepareSizing sceneData lightData entities.length).2, 0⟩
  have heq := computeCapacity_eq entities.length h
  unfold prepare
  refine ⟨heq, ?_, ?_, ?_, ?_, ?_⟩
  · rw [hcap.2.2.1, ← heq]
    simp [prepareSizing, sizeSoa]
    split <;> omega
  · rw [hcap.2.2.2, ← heq]
    simp [prepareSizing, sizeSoa]
    split <;> omega
  · rw [hcap.2.2.1]
    simp [prepareSizing, sizeSoa]
    split <;> omega
  · rw [hcap.2.2.2]
    simp [prepareSizing, sizeSoa]
    split <;> omega
  · simp [prepareSizing, DIRECTIONAL_LIGHTS_COUNT]

/-- Witness for C8 at a five-entity scene. -/
theorem prepare_capacity_witness :
    [7, 8, 9, 10, 11].length + 0xF < 2 ^ 64 ∧
    computeCapacity [7, 8, 9, 10, 11].length = specCapacityBound [7, 8, 9, 10, 11].length ∧
    (prepareSizing ⟨[], 0⟩ ⟨[], 0⟩ [7, 8, 9, 10, 11].length).2.rows.length = 1 := by
  have h : [7, 8, 9, 10, 11].length + 0xF < 2 ^ 64 := by norm_num
  have hm := prepare_capacity trivialEngine 1 [7, 8, 9, 10, 11] ⟨[], 0⟩ ⟨[], 0⟩ h
  exact ⟨h, hm.1, hm.2.2.2.2.2⟩

/-- C7 counterexample: with no skybox set but the skybox's entity already a scene member,
`setSkybox(A)` followed by `setSkybox(null)` does not restore the entity set — the
round-trip removes entity 0. -/
theorem setSkybox_roundtrip_cex :
    (setSkybox (setSkybox ⟨{0}, none⟩ (some 0)) none).entities
      ≠ (SceneMembership.mk {0} none).entities := by
  decide

/-- C7 (amended): every `setSkybox` call registers the new skybox, removes the previous
skybox's entity (if any) and adds the new one's (if any); consequently, for a scene with
no skybox set, `setSkybox(A)` then `setSkybox(null)` restores the entity-membership set,
provided A's entity was not already a scene member. -/
theorem setSkybox_spec :
    (∀ (st : SceneMembership) (s : Option Nat),
      (setSkybox st s).skybox = s ∧
      ∀ x, x ∈ (setSkybox st s).entities ↔
        (s = some x ∨ (x ∈ st.entities ∧ st.skybox ≠ some x))) ∧
    (∀ (st : SceneMembership) (a : Nat), st.skybox = none → a ∉ st.entities →
      (setSkybox (setSkybox st (some a)) none).entities = st.entities ∧
      (setSkybox (setSkybox st (some a)) none).skybox = none) := by
  constructor
  · intro st s
    rcases st with ⟨ents, _ | oldSb⟩ <;> rcases s with _ | newSb <;>
      simp [setSkybox, addEntity, removeEntity, Finset.mem_erase, Finset.mem_insert] <;>
      intro x <;> tauto
  · intro st a hnone hmem
    rcases st with ⟨ents, sb⟩
    subst hnone
    refine ⟨?_, rfl⟩
    simp [setSkybox, addEntity, removeEntity]
    exact hmem

/-- Witness for the amended C7 at a concrete scene state. -/
theorem setSkybox_spec_witness :
    (SceneMembership.mk {5} none).skybox = none ∧
    (0 : Nat) ∉ (SceneMembership.mk {5} none).entities ∧
    (setSkybox (setSkybox ⟨{5}, none⟩ (some 0)) none).entities
      = (SceneMembership.mk {5} none).entities :=
  ⟨rfl, by decide, (setSkybox_spec.2 ⟨{5}, none⟩ 0 rfl (by decide)).1⟩

/-- Componentwise minimum is right-commutative. -/
theorem min3_right_comm (x a b : Vec3) : min3 (min3 x a) b = min3 (min3 x b) a := by
  funext i
  exact min_right_comm (x i) (a i) (b i)

/-- Componentwise maximum is right-commutative. -/
theorem max3_right_comm (x a b : Vec3) : max3 (max3 x a) b = max3 (max3 x b) a := by
  funext i
  rw [max3, max3, max3, max3]
  rw [max_assoc, max_comm (a i) (b i), ← max_assoc]

/-- Two iterations of the `computeBounds` loop commute. -/
theorem computeBoundsStep_comm (v : Nat) (acc : Aabb × Aabb) (a b : RenderableRow) :
    computeBoundsStep v (computeBoundsStep v acc a) b
      = computeBoundsStep v (computeBoundsStep v acc b) a := by
  unfold computeBoundsStep
  by_cases hla : a.layers &&& v ≠ 0 <;> by_cases hlb : b.layers &&& v ≠ 0 <;>
    by_cases hca : a.visibility.castShadows <;> by_cases hcb : b.visibility.castShadows <;>
    by_cases hra : a.visibility.receiveShadows <;> by_cases hrb : b.visibility.receiveShadows <;>
    simp [hla, hlb, hca, hcb, hra, hrb, min3_right_comm, max3_right_comm]

/-- A row not intersecting `visibleLayers` leaves the accumulator unchanged. -/
theorem computeBoundsStep_skip (v : Nat) (acc : Aabb × Aabb) (r : RenderableRow)
    (h : r.layers &&& v = 0) : computeBoundsStep v acc r = acc := by
  simp [computeBoundsStep, h]

/-- C6: `computeBounds` is a pure order-insensitive reduction: the result is invariant
under any permutation of the rows; a row whose layer bitmask does not intersect
`visibleLayers` contributes to neither output box; and when no row matches, both
accumulator boxes keep their initial value. -/
theorem computeBounds_reduction (v : Nat) (castersBox receiversBox : Aabb) :
    (∀ l1 l2 : List RenderableRow, List.Perm l1 l2 →
      computeBounds l1 v castersBox receiversBox = computeBounds l2 v castersBox receiversBox) ∧
    (∀ (l1 l2 : List RenderableRow) (r : RenderableRow), r.layers &&& v = 0 →
      computeBounds (l1 ++ r :: l2) v castersBox receiversBox
        = computeBounds (l1 ++ l2) v castersBox receiversBox) ∧
    (∀ l : List RenderableRow, (∀ r ∈ l, r.layers &&& v = 0) →
      computeBounds l v castersBox receiversBox = (castersBox, receiversBox)) := by
  refine ⟨?_, ?_, ?_⟩
  · intro l1 l2 hp
    exact hp.foldl_eq' (fun x _ y _ z => computeBoundsStep_comm v z x y) _
  · intro l1 l2 r hr
    unfold computeBounds
    rw [List.foldl_append, List.foldl_append, List.foldl_cons,
      computeBoundsStep_skip v _ r hr]
  · intro l hl
    unfold computeBounds
    induction l with
    | nil => rfl
    | cons r l ih =>
      rw [List.foldl_cons, computeBoundsStep_skip v _ r (hl r (List.mem_cons_self r l))]
      exact ih fun x hx => hl x (List.mem_cons_of_mem r hx)

/-- Witness for C6: permutation invariance at two concrete rows, and the skip property at
a row on a non-matching layer. -/
theorem computeBounds_reduction_witness :
    List.Perm [unitCubeRow, layer2Row] [layer2Row, unitCubeRow] ∧
    computeBounds [unitCubeRow, layer2Row] 1 emptyBox emptyBox
      = computeBounds [layer2Row, unitCubeRow] 1 emptyBox emptyBox ∧
    layer2Row.layers &&& 1 = 0 ∧
    computeBounds [unitCubeRow, layer2Row] 1 emptyBox emptyBox
      = computeBounds [unitCubeRow] 1 emptyBox emptyBox := by
  have hp : List.Perm [unitCubeRow, layer2Row] [layer2Row, unitCubeRow] :=
    List.Perm.swap layer2Row unitCubeRow []
  have hskip : layer2Row.layers &&& 1 = 0 := by decide
  refine ⟨hp, (computeBounds_reduction 1 emptyBox emptyBox).1 _ _ hp, hskip, ?_⟩
  have h2 := (computeBounds_reduction 1 emptyBox emptyBox).2.1 [unitCubeRow] [] layer2Row hskip
  simpa using h2

/-- Evaluation of one entity-loop iteration on a pure directional light whose intensity
passes the `>= maxIntensity` test: row 0 is overwritten and — as in the source —
`maxIntensity` is left unchanged. -/
theorem prepareStep_directional (env : Engine) (o : Mat4) (st : GatherState) (e l : Nat)
    (halive : env.isAlive e = true)
    (hri : env.renderableInstanceOf e = none)
    (hli : env.lightInstanceOf e = some l)
    (hdir : (env.lightProps l).isDirectional = true)
    (hint : (env.lightProps l).intensity ≥ st.maxIntensity) :
    prepareStep env o st e =
      ⟨st.sceneData,
        ⟨st.lightData.rows.set 0
            (directionalLightRow env (o * env.worldTransformOf (env.transformInstanceOf e)) l),
          st.lightData.cap⟩,
        st.maxIntensity⟩ := by
  unfold prepareStep
  simp [halive, hri, hli, hdir, hint]

/-- C2 exhibits the defect: with two directional lights of intensities 10 then 5,
iterated in that order, the light retained in row 0 is the intensity-5 one — the
running `maxIntensity` is never updated, so the last directional light with
intensity ≥ 0 wins, not the maximum-intensity one. -/
theorem prepare_directional_last_wins :
    ((prepare engineC2 1 [1, 2] ⟨[], 0⟩ ⟨[], 0⟩).lightData.rows.map LightRow.lightInstance
      = [2]) ∧
    (engineC2.lightProps 2).intensity < (engineC2.lightProps 1).intensity := by
  constructor
  · have hint1 : (engineC2.lightProps 1).intensity = 10 := by
      simp [engineC2, zeroLightProps]
    have hint2 : (engineC2.lightProps 2).intensity = 5 := by
      norm_num [engineC2, zeroLightProps]
    have hstep1 := prepareStep_directional engineC2 1
      ⟨(prepareSizing ⟨[], 0⟩ ⟨[], 0⟩ 2).1, (prepareSizing ⟨[], 0⟩ ⟨[], 0⟩ 2).2, 0⟩ 1 1
      rfl rfl rfl rfl (by rw [hint1]; norm_num)
    unfold prepare
    simp only [List.length_cons, List.length_nil, List.foldl_cons, List.foldl_nil]
    rw [hstep1]
    rw [prepareStep_directional engineC2 1 _ 2 2 rfl rfl rfl rfl (by rw [hint2]; norm_num)]
    simp [prepareSizing, sizeSoa, DIRECTIONAL_LIGHTS_COUNT, directionalLightRow]
  · norm_num [engineC2, zeroLightProps]

/-- Indexing into a dropped list. -/
theorem get?_drop_add {α : Type} : ∀ (i : Nat) (l : List α) (j : Nat),
    (l.drop i).get? j = l.get? (i + j)
  | 0, _, _ => by simp
  | n + 1, [], j => by simp
  | n + 1, a :: l, j => by
    rw [List.drop_succ_cons, get?_drop_add n l j, Nat.succ_add, List.get?_cons_succ]

/-- C5 (amended): on every input that does not enter the truncation branch
(`size ≤ CONFIG_MAX_LIGHT_COUNT + 1` — on truncating inputs the source overruns its
`distances` buffer before this phase, so no protocol is established there), the GPU
trace of `prepareLights` consists of, in order, one slot write per surviving
local-light row `i` (row `i` to slot `i - 1`; row 0 is never written to a local-light
slot), then a single dirty-marking, then a single commit; the rows themselves pass
through unchanged.  The marked range is `[0, size)`: the written slots plus one extra
trailing slot (the count passed to `invalidate` includes the reserved directional
row). -/
theorem prepareLights_trace_spec (env : Engine) (k : Nat) (camera : Vec3)
    (rows rows' : List LightRow) (tr : List GpuEvent)
    (hsize : rows.length ≤ k + DIRECTIONAL_LIGHTS_COUNT)
    (h : prepareLights env k camera rows = (rows', tr)) :
    rows' = rows ∧
    tr.length = (rows'.length - 1) + 2 ∧
    (∀ j r, rows'.get? (j + 1) = some r →
      tr.get? j = some (GpuEvent.writeSlot j (packLight env r))) ∧
    (∀ j s p, tr.get? j = some (GpuEvent.writeSlot s p) → s = j ∧ j < rows'.length - 1) ∧
    tr.get? (rows'.length - 1) = some (GpuEvent.invalidate 0 rows'.length) ∧
    tr.get? ((rows'.length - 1) + 1) = some GpuEvent.commit ∧
    tr.countP isCommitEvent = 1 ∧
    tr.countP isInvalidateEvent = 1 := by
  have h' : (truncateLights k camera rows,
      (((truncateLights k camera rows).drop DIRECTIONAL_LIGHTS_COUNT).enum.map
        fun p => GpuEvent.writeSlot p.1 (packLight env p.2))
      ++ [GpuEvent.invalidate 0 (truncateLights k camera rows).length, GpuEvent.commit])
      = (rows', tr) := h
  have hr : truncateLights k camera rows = rows' := congrArg Prod.fst h'
  have ht : (((truncateLights k camera rows).drop DIRECTIONAL_LIGHTS_COUNT).enum.map
      fun p => GpuEvent.writeSlot p.1 (packLight env p.2))
      ++ [GpuEvent.invalidate 0 (truncateLights k camera rows).length, GpuEvent.commit]
      = tr := congrArg Prod.snd h'
  rw [hr] at ht
  subst ht
  clear h h'
  have wlen : ((rows'.drop DIRECTIONAL_LIGHTS_COUNT).enum.map
      fun p => GpuEvent.writeSlot p.1 (packLight env p.2)).length = rows'.length - 1 := by
    simp [DIRECTIONAL_LIGHTS_COUNT]
  refine ⟨?_, ?_, ?_, ?_, ?_, ?_, ?_, ?_⟩
  · rw [← hr]
    unfold truncateLights
    rw [if_neg (by omega)]
  · simp [DIRECTIONAL_LIGHTS_COUNT]
  · intro j r hjr
    have hj : j + 1 < rows'.length := by
      by_contra hc
      rw [List.get?_eq_none.mpr (by omega)] at hjr
      exact Option.noConfusion hjr
    rw [List.get?_append (by rw [wlen]; omega), List.get?_map, List.get?_enum,
      get?_drop_add, DIRECTIONAL_LIGHTS_COUNT, Nat.add_comm 1 j, hjr]
    rfl
  · intro j s p hj
    by_cases hjw : j < rows'.length - 1
    · rw [List.get?_append (by rw [wlen]; omega), List.get?_map, List.get?_enum] at hj
      cases hget : (rows'.drop DIRECTIONAL_LIGHTS_COUNT).get? j with
      | none => rw [hget] at hj; exact Option.noConfusion hj
      | some a =>
        rw [hget] at hj
        simp only [Option.map_some', Option.some.injEq] at hj
        cases hj
        exact ⟨rfl, hjw⟩
    · rw [List.get?_append_right (by rw [wlen]; omega)] at hj
      rcases hm : j - ((rows'.drop DIRECTIONAL_LIGHTS_COUNT).enum.map
          fun p => GpuEvent.writeSlot p.1 (packLight env p.2)).length with _ | _ | m <;>
        rw [hm] at hj <;> simp at hj
  · rw [List.get?_append_right (by rw [wlen])]
    rw [wlen]
    simp
  · rw [List.get?_append_right (by rw [wlen]; omega)]
    rw [wlen]
    simp
  · rw [List.countP_append]
    have h0 : ((rows'.drop DIRECTIONAL_LIGHTS_COUNT).enum.map
        fun p => GpuEvent.writeSlot p.1 (packLight env p.2)).countP isCommitEvent = 0 := by
      rw [List.countP_eq_zero]
      intro a ha
      obtain ⟨q, -, hq⟩ := List.mem_map.mp ha
      rw [← hq]
      simp [isCommitEvent]
    rw [h0]
    simp [isCommitEvent]
  · rw [List.countP_append]
    have h0 : ((rows'.drop DIRECTIONAL_LIGHTS_COUNT).enum.map
        fun p => GpuEvent.writeSlot p.1 (packLight env p.2)).countP isInvalidateEvent = 0 := by
      rw [List.countP_eq_zero]
      intro a ha
      obtain ⟨q, -, hq⟩ := List.mem_map.mp ha
      rw [← hq]
      simp [isInvalidateEvent]
    rw [h0]
    simp [isInvalidateEvent]

/-- C5 counterexample: with one row (no local lights at all), no GPU slot is written,
yet the dirty-marking covers the non-empty range `[0, 1)` — the marked range is not
exactly the written slot range. -/
theorem prepareLights_dirty_excess :
    (prepareLights trivialEngine 1 originCam [zeroLightRow]).2
        = [GpuEvent.invalidate 0 1, GpuEvent.commit] ∧
    (prepareLights trivialEngine 1 originCam [zeroLightRow]).2.countP isWriteEvent = 0 := by
  constructor <;> rfl

/-- Witness for the amended C5 at a concrete one-local-light, non-truncating state. -/
theorem prepareLights_trace_spec_witness :
    [zeroLightRow, axisLight 1].length ≤ 2 + DIRECTIONAL_LIGHTS_COUNT ∧
    prepareLights trivialEngine 2 originCam [zeroLightRow, axisLight 1]
      = ([zeroLightRow, axisLight 1],
         [GpuEvent.writeSlot 0 (packLight trivialEngine (axisLight 1)),
          GpuEvent.invalidate 0 2, GpuEvent.commit]) ∧
    [GpuEvent.writeSlot 0 (packLight trivialEngine (axisLight 1)),
        GpuEvent.invalidate 0 2, GpuEvent.commit].countP isCommitEvent = 1 := by
  have hsize : [zeroLightRow, axisLight 1].length ≤ 2 + DIRECTIONAL_LIGHTS_COUNT := by
    simp [DIRECTIONAL_LIGHTS_COUNT]
  have h : prepareLights trivialEngine 2 originCam [zeroLightRow, axisLight 1]
      = ([zeroLightRow, axisLight 1],
         [GpuEvent.writeSlot 0 (packLight trivialEngine (axisLight 1)),
          GpuEvent.invalidate 0 2, GpuEvent.commit]) := rfl
  exact ⟨hsize, h,
    (prepareLights_trace_spec trivialEngine 2 originCam _ _ _ hsize h).2.2.2.2.2.2.1⟩

/-- A nonzero vector has positive length. -/
theorem norm3_pos (v : Vec3) (hv : v ≠ 0) : 0 < norm3 v := by
  have hc : v 0 ≠ 0 ∨ v 1 ≠ 0 ∨ v 2 ≠ 0 := by
    by_contra hc
    push_neg at hc
    exact hv (funext fun i => by fin_cases i <;> simp [hc.1, hc.2.1, hc.2.2])
  have hS : 0 < v 0 * v 0 + v 1 * v 1 + v 2 * v 2 := by
    rcases hc with h | h | h
    · nlinarith [mul_self_nonneg (v 1), mul_self_nonneg (v 2), mul_self_pos.mpr h]
    · nlinarith [mul_self_nonneg (v 0), mul_self_nonneg (v 2), mul_self_pos.mpr h]
    · nlinarith [mul_self_nonneg (v 0), mul_self_nonneg (v 1), mul_self_pos.mpr h]
  exact Real.sqrt_pos.mpr hS

/-- Normalizing a nonzero vector yields a unit-length vector. -/
theorem norm3_normalize3 (v : Vec3) (hv : v ≠ 0) : norm3 (normalize3 v) = 1 := by
  have hn : 0 < norm3 v := norm3_pos v hv
  have hS : 0 < v 0 * v 0 + v 1 * v 1 + v 2 * v 2 := by
    have h' := hn
    unfold norm3 at h'
    exact Real.sqrt_pos.mp h'
  have hmul : norm3 v * norm3 v = v 0 * v 0 + v 1 * v 1 + v 2 * v 2 := by
    unfold norm3
    exact Real.mul_self_sqrt (le_of_lt hS)
  have hsum : normalize3 v 0 * normalize3 v 0 + normalize3 v 1 * normalize3 v 1 +
      normalize3 v 2 * normalize3 v 2 = 1 := by
    show v 0 / norm3 v * (v 0 / norm3 v) + v 1 / norm3 v * (v 1 / norm3 v) +
        v 2 / norm3 v * (v 2 / norm3 v) = 1
    rw [div_mul_div_comm, div_mul_div_comm, div_mul_div_comm, div_add_div_same,
      div_add_div_same, hmul]
    exact div_self (ne_of_gt hS)
  show Real.sqrt (normalize3 v 0 * normalize3 v 0 + normalize3 v 1 * normalize3 v 1 +
      normalize3 v 2 * normalize3 v 2) = 1
  rw [hsum]
  exact Real.sqrt_one

/-- Normalizing a nonzero vector yields a nonzero vector. -/
theorem normalize3_ne_zero (v : Vec3) (hv : v ≠ 0) : normalize3 v ≠ 0 := by
  intro h0
  have h1 := norm3_normalize3 v hv
  rw [h0] at h1
  unfold norm3 at h1
  simp at h1

/-- A matrix with nonzero determinant maps nonzero vectors to nonzero vectors. -/
theorem mulVec_ne_zero (A : Mat3) (hA : A.det ≠ 0) (v : Vec3) (hv : v ≠ 0) :
    A.mulVec v ≠ 0 := by
  intro h0
  have h1 : A⁻¹.mulVec (A.mulVec v) = v := by
    rw [Matrix.mulVec_mulVec, Matrix.nonsing_inv_mul A (isUnit_iff_ne_zero.mpr hA),
      Matrix.one_mulVec]
  rw [h0, Matrix.mulVec_zero] at h1
  exact hv h1.symm

/-- C4: the direction stored by `prepare` for a local light is the zero vector exactly
when the light is a point light without an IES profile; in every other case it is the
local direction transformed by the inverse-transpose of the world transform's upper-left
3×3 and normalized — hence unit length and nonzero — for any non-degenerate transform
(and nonzero local direction). -/
theorem localLightRow_direction (env : Engine) (W : Mat4) (li : Nat)
    (hdet : (upperLeft W).det ≠ 0)
    (hdir : (env.lightProps li).localDirection ≠ 0) :
    ((localLightRow env W li).direction = 0 ↔
      ((env.lightProps li).isPoint = true ∧ (env.lightProps li).isIES = false)) ∧
    (¬((env.lightProps li).isPoint = true ∧ (env.lightProps li).isIES = false) →
      (localLightRow env W li).direction
          = transformedDirection W (env.lightProps li).localDirection ∧
      norm3 (localLightRow env W li).direction = 1 ∧
      (localLightRow env W li).direction ≠ 0) := by
  have hA : ((upperLeft W)⁻¹.transpose).det ≠ 0 := by
    rw [Matrix.det_transpose, Matrix.det_nonsing_inv, Ring.inverse_eq_inv]
    exact inv_ne_zero hdet
  have hw : (upperLeft W)⁻¹.transpose.mulVec (env.lightProps li).localDirection ≠ 0 :=
    mulVec_ne_zero _ hA _ hdir
  have hdz : transformedDirection W (env.lightProps li).localDirection ≠ 0 :=
    normalize3_ne_zero _ hw
  have hnorm : norm3 (transformedDirection W (env.lightProps li).localDirection) = 1 :=
    norm3_normalize3 _ hw
  have hd : (localLightRow env W li).direction =
      (if ¬(env.lightProps li).isPoint = true ∨ (env.lightProps li).isIES = true
        then transformedDirection W (env.lightProps li).localDirection else 0) := rfl
  have hzero : ((env.lightProps li).isPoint = true ∧ (env.lightProps li).isIES = false) →
      (localLightRow env W li).direction = 0 := by
    rintro ⟨hp, hi⟩
    rw [hd, if_neg (by simp [hp, hi])]
  have htrans : ¬((env.lightProps li).isPoint = true ∧ (env.lightProps li).isIES = false) →
      (localLightRow env W li).direction
        = transformedDirection W (env.lightProps li).localDirection := by
    intro hc
    rw [hd, if_pos]
    by_cases hp : (env.lightProps li).isPoint = true
    · right
      rcases Bool.eq_false_or_eq_true ((env.lightProps li).isIES) with hi | hi
      · exact hi
      · exact absurd ⟨hp, hi⟩ hc
    · exact Or.inl hp
  refine ⟨⟨?_, hzero⟩, fun hc => ⟨htrans hc, ?_, ?_⟩⟩
  · intro h0
    by_contra hc
    rw [htrans hc] at h0
    exact hdz h0
  · rw [htrans hc]
    exact hnorm
  · rw [htrans hc]
    exact hdz

/-- The upper-left 3×3 of the identity transform is the identity. -/
theorem upperLeft_one : upperLeft (1 : Mat4) = (1 : Mat3) := by
  ext i j
  simp [upperLeft, Matrix.submatrix_apply, Matrix.one_apply, Fin.castSucc_inj]

/-- Witness for C4 at the identity transform and a spot-like light. -/
theorem localLightRow_direction_witness :
    (upperLeft (1 : Mat4)).det ≠ 0 ∧
    (engineC4.lightProps 0).localDirection ≠ 0 ∧
    ((localLightRow engineC4 1 0).direction = 0 ↔
      ((engineC4.lightProps 0).isPoint = true ∧ (engineC4.lightProps 0).isIES = false)) := by
  have hdet : (upperLeft (1 : Mat4)).det ≠ 0 := by
    rw [upperLeft_one, Matrix.det_one]
    norm_num
  have hdir : (engineC4.lightProps 0).localDirection ≠ 0 := by
    intro h
    have h2 := congrFun h 2
    simp [engineC4, zeroLightProps, v3] at h2
  exact ⟨hdet, hdir, (localLightRow_direction engineC4 1 0 hdet hdir).1⟩

/-- The selection the truncation branch *intends* to compute, proved of the idealized
`truncateLights` (the `distances`-buffer overrun erased): with capacity `k` and more
than `k` local lights with pairwise distinct camera-boundary distances, row 0 stays
untouched at the head, the logical length becomes `min(previous length, k + 1)`, and
the retained local rows are exactly `k` of the original local lights — every retained
light strictly nearer (by boundary distance) than every dropped one.  The program
itself never computes this cleanly: every input reaching the branch overruns the
buffer first. -/
theorem truncateLights_keeps_nearest (k : Nat) (camera : Vec3) (rows : List LightRow)
    (hlen : rows.length > k + DIRECTIONAL_LIGHTS_COUNT)
    (hdist : (rows.drop DIRECTIONAL_LIGHTS_COUNT).Pairwise
      (fun a b => lightDistance camera a ≠ lightDistance camera b)) :
    (truncateLights k camera rows).head? = rows.head? ∧
    (truncateLights k camera rows).length = min rows.length (k + DIRECTIONAL_LIGHTS_COUNT) ∧
    ((truncateLights k camera rows).drop DIRECTIONAL_LIGHTS_COUNT).length = k ∧
    List.Perm
      ((truncateLights k camera rows).drop DIRECTIONAL_LIGHTS_COUNT ++
        (sortLocals camera (rows.drop DIRECTIONAL_LIGHTS_COUNT)).drop k)
      (rows.drop DIRECTIONAL_LIGHTS_COUNT) ∧
    (∀ a ∈ (truncateLights k camera rows).drop DIRECTIONAL_LIGHTS_COUNT,
      ∀ b ∈ (sortLocals camera (rows.drop DIRECTIONAL_LIGHTS_COUNT)).drop k,
        lightDistance camera a < lightDistance camera b) := by
  haveI hTot : IsTotal LightRow (distLE camera) := ⟨fun a b => le_total _ _⟩
  haveI hTrans : IsTrans LightRow (distLE camera) := ⟨fun a b c hab hbc => le_trans hab hbc⟩
  cases rows with
  | nil => simp [DIRECTIONAL_LIGHTS_COUNT] at hlen
  | cons hd tl =>
    simp only [DIRECTIONAL_LIGHTS_COUNT, List.drop_succ_cons, List.drop_zero] at hdist ⊢
    have hlen' : (hd :: tl).length > k + 1 := by
      simpa [DIRECTIONAL_LIGHTS_COUNT] using hlen
    have htl : tl.length > k := by
      simp at hlen'
      omega
    have hperm : List.Perm (sortLocals camera tl) tl :=
      List.perm_insertionSort (distLE camera) tl
    have hSlen : (sortLocals camera tl).length = tl.length := hperm.length_eq
    have hmin : min (hd :: tl).length (k + DIRECTIONAL_LIGHTS_COUNT) = k + 1 := by
      simp only [DIRECTIONAL_LIGHTS_COUNT, List.length_cons]
      omega
    have htrunc : truncateLights k camera (hd :: tl) = hd :: (sortLocals camera tl).take k := by
      unfold truncateLights
      rw [if_pos hlen, hmin]
      simp only [DIRECTIONAL_LIGHTS_COUNT, List.take_succ_cons, List.take_zero,
        List.drop_succ_cons, List.drop_zero, List.singleton_append]
    rw [htrunc]
    have hsorted : List.Pairwise (distLE camera) (sortLocals camera tl) :=
      List.sorted_insertionSort (distLE camera) tl
    have hne : List.Pairwise (fun a b => lightDistance camera a ≠ lightDistance camera b)
        (sortLocals camera tl) :=
      (hperm.pairwise_iff (fun h => Ne.symm h)).mpr hdist
    have hlt : List.Pairwise (fun a b => lightDistance camera a < lightDistance camera b)
        (sortLocals camera tl) :=
      (hsorted.and hne).imp fun h => lt_of_le_of_ne h.1 h.2
    have hsplit := List.take_append_drop k (sortLocals camera tl)
    refine ⟨rfl, ?_, ?_, ?_, ?_⟩
    · simp only [List.length_cons, List.length_take]
      omega
    · simp only [List.drop_succ_cons, List.drop_zero, List.length_take]
      omega
    · simp only [List.drop_succ_cons, List.drop_zero]
      rw [hsplit]
      exact hperm
    · simp only [List.drop_succ_cons, List.drop_zero]
      rw [← hsplit] at hlt
      exact (List.pairwise_append.mp hlt).2.2

/-- The boundary distance of an axis light from the origin camera is its coordinate. -/
theorem lightDistance_axisLight (x : ℝ) (hx : 0 ≤ x) :
    lightDistance originCam (axisLight x) = x := by
  unfold lightDistance
  have e0 : (originCam - xyz (axisLight x).positionRadius) 0 = 0 - x := by
    rw [Pi.sub_apply, show originCam 0 = 0 from rfl,
      show xyz (axisLight x).positionRadius 0 = x from rfl]
  have e1 : (originCam - xyz (axisLight x).positionRadius) 1 = 0 - 0 := by
    rw [Pi.sub_apply, show originCam 1 = 0 from rfl,
      show xyz (axisLight x).positionRadius 1 = 0 from rfl]
  have e2 : (originCam - xyz (axisLight x).positionRadius) 2 = 0 - 0 := by
    rw [Pi.sub_apply, show originCam 2 = 0 from rfl,
      show xyz (axisLight x).positionRadius 2 = 0 from rfl]
  have er : (axisLight x).positionRadius 3 = 0 := rfl
  unfold norm3
  rw [e0, e1, e2, er,
    show (0 - x) * (0 - x) + (0 - 0) * (0 - 0) + (0 - 0) * (0 - 0) = x * x by ring,
    Real.sqrt_mul_self hx, sub_zero]
  exact max_eq_right hx

/-- The intended-selection theorem exercised at a concrete input: five rows, `k = 2`,
distances 1 < 2 < 3 < 4. -/
theorem truncateLights_keeps_nearest_witness :
    witnessRows.length > 2 + DIRECTIONAL_LIGHTS_COUNT ∧
    (witnessRows.drop DIRECTIONAL_LIGHTS_COUNT).Pairwise
      (fun a b => lightDistance originCam a ≠ lightDistance originCam b) ∧
    (truncateLights 2 originCam witnessRows).head? = witnessRows.head? ∧
    (truncateLights 2 originCam witnessRows).length
      = min witnessRows.length (2 + DIRECTIONAL_LIGHTS_COUNT) := by
  have h1 : witnessRows.length > 2 + DIRECTIONAL_LIGHTS_COUNT := by
    simp [witnessRows, DIRECTIONAL_LIGHTS_COUNT]
  have hd1 := lightDistance_axisLight 1 (by norm_num)
  have hd2 := lightDistance_axisLight 2 (by norm_num)
  have hd3 := lightDistance_axisLight 3 (by norm_num)
  have hd4 := lightDistance_axisLight 4 (by norm_num)
  have h2 : (witnessRows.drop DIRECTIONAL_LIGHTS_COUNT).Pairwise
      (fun a b => lightDistance originCam a ≠ lightDistance originCam b) := by
    show List.Pairwise (fun a b => lightDistance originCam a ≠ lightDistance originCam b)
      [axisLight 1, axisLight 2, axisLight 3, axisLight 4]
    refine List.Pairwise.cons ?_ (List.Pairwise.cons ?_ (List.Pairwise.cons ?_
      (List.Pairwise.cons ?_ List.Pairwise.nil))) <;>
      intro b hb <;> fin_cases hb <;>
      simp only [hd1, hd2, hd3, hd4] <;> norm_num
  have hmain := truncateLights_keeps_nearest 2 originCam witnessRows h1 h2
  exact ⟨h1, h2, hmain.1, hmain.2.1⟩

/-- On every input that enters the truncation branch (`size > k + 1`), the pre-sort loop
stores to at least one `distances` index at or past the end of the `k`-element buffer. -/
theorem distancesWriteIndices_overrun (k : Nat) (rows : List LightRow)
    (h : rows.length > k + DIRECTIONAL_LIGHTS_COUNT) :
    ∃ i ∈ distancesWriteIndices rows, distancesBufferSize k ≤ i := by
  refine ⟨rows.length - 1, ?_, ?_⟩
  · simp only [distancesWriteIndices, DIRECTIONAL_LIGHTS_COUNT, List.mem_range'_1] at *
    omega
  · simp only [distancesBufferSize, DIRECTIONAL_LIGHTS_COUNT] at *
    omega

/-- C1: the program does not compute the claimed nearest-`k` selection in the claimed
regime.  At the concrete failing input — capacity `k = 2`, a `LightSoa` of size 5, so
`size > k + 1` and the truncation branch runs — the pre-sort loop stores
`distances[1] .. distances[4]`, and the stores at indices 2, 3 and 4 land at or past the
end of the 2-element `distances` buffer; the zipped sort then reads through the overrun,
so the branch's behavior is an out-of-bounds access rather than the claimed selection. -/
theorem truncateLights_buffer_overrun :
    witnessRows.length > 2 + DIRECTIONAL_LIGHTS_COUNT ∧
    distancesWriteIndices witnessRows = [1, 2, 3, 4] ∧
    (∃ i ∈ distancesWriteIndices witnessRows, distancesBufferSize 2 ≤ i) :=
  ⟨by decide, by decide, by decide⟩

/-- C9: the assertion's bound holds of the idealized truncation arithmetic (first
conjunct), but the claim's "for every input of any length, control reaches the
assertion" is false of the program: on any state in the truncating regime — exhibited
here at size 5 with `k = 2` — the pre-sort loop writes past the end of the `distances`
buffer before control can reach the assertion (second conjunct). -/
theorem truncateLights_assert_overrun :
    (truncateLights 2 originCam witnessRows).length ≤ 2 + 1 ∧
    (witnessRows.length > 2 + DIRECTIONAL_LIGHTS_COUNT ∧
      ∃ i ∈ distancesWriteIndices witnessRows, distancesBufferSize 2 ≤ i) :=
  ⟨truncateLights_assert 2 originCam witnessRows, by decide, by decide⟩

end Filament
